import Mathlib

/-!
Verification of the PandoraPFA calo-hit bookkeeping core
(`src/Helpers/CaloHitHelper.cc`) against its natural-language
specification.

The C++ helper keeps process-wide static state: a nesting-depth counter
`m_nReclusteringProcesses`, a pointer `m_pCurrentUsageMap` to the current
usage map, a vector `m_parentCaloHitUsageMaps` of saved parent pointers, a
vector-of-vectors `m_nestedUsageMapNames` recording the overlay names
created at each open nesting level, and a registry
`m_nameToCaloHitUsageMap` from name to usage map.

Usage maps are heap objects shared by pointer between the registry, the
parent stack and the current pointer.  The embedding makes the heap
explicit: every allocated `std::map<CaloHit*, bool>` gets a numeric
`MapId`, the heap is an association list `mapStore : List (MapId × UsageMap)`,
and the registry / parent stack / current pointer hold `MapId`s, so the
aliasing of the C++ pointers is preserved.  `CaloHit*` identities become
`HitId := Nat`; the mutable ground-truth flag `CaloHit::m_isAvailable` of
all hits is a function `HitId → Bool` passed and returned explicitly.

`std::map` is modelled as an association list with unique keys; map
iteration order becomes list order (the verified statements only depend on
pointwise lookups, never on the std::map pointer ordering).
-/

namespace PandoraPFA

/-- StatusCode values used by CaloHitHelper (Pandora/StatusCodes.h). -/
inductive StatusCode where
  | SUCCESS
  | NOT_ALLOWED
  | NOT_FOUND
  | FAILURE
  deriving DecidableEq

export StatusCode (SUCCESS NOT_ALLOWED NOT_FOUND FAILURE)

/-- Identity of a `CaloHit*` (pointer identity). -/
abbrev HitId := Nat

/-- Identity of a heap-allocated `CaloHitUsageMap*`. -/
abbrev MapId := Nat

/-- `CaloHitUsageMap = std::map<CaloHit*, bool>`, as an association list. -/
abbrev UsageMap := List (HitId × Bool)

/-- `map::find`: first value stored under a key, if any. -/
def alistFind {α β : Type} [DecidableEq α] : List (α × β) → α → Option β
  | [], _ => none
  | kv :: t, k => if kv.1 = k then some kv.2 else alistFind t k

/-- Assignment through a `map` iterator: overwrite the value stored under
an existing key (no effect on absent keys). -/
def alistSet {α β : Type} [DecidableEq α] (l : List (α × β)) (k : α) (v : β) :
    List (α × β) :=
  l.map (fun kv => if kv.1 = k then (k, v) else kv)

/-- `map::erase` of one key (unique-key maps: removes its entry). -/
def alistErase {α β : Type} [DecidableEq α] (l : List (α × β)) (k : α) :
    List (α × β) :=
  l.filter (fun kv => decide (kv.1 ≠ k))

/-- The static state of `CaloHitHelper` (CaloHitHelper.cc lines 22-26),
with the usage-map heap made explicit. -/
structure ManagerState where
  nReclusteringProcesses : Nat
  pCurrentUsageMap : Option MapId
  parentCaloHitUsageMaps : List (Option MapId)
  nestedUsageMapNames : List (List String)
  nameToCaloHitUsageMap : List (String × MapId)
  mapStore : List (MapId × UsageMap)
  nextMapId : MapId
  deriving DecidableEq

/-- The state at static initialization: depth 0, null current map, all
containers empty. -/
def initState : ManagerState :=
  { nReclusteringProcesses := 0
    pCurrentUsageMap := none
    parentCaloHitUsageMaps := []
    nestedUsageMapNames := []
    nameToCaloHitUsageMap := []
    mapStore := []
    nextMapId := 0 }

/-- Contents of `*m_pCurrentUsageMap` (empty when the pointer is null or
dangling; reachable states always have a live current map at depth ≥ 1). -/
def currentMap (s : ManagerState) : UsageMap :=
  match s.pCurrentUsageMap with
  | none => []
  | some cid => (alistFind s.mapStore cid).getD []

/-- In-place mutation of `*m_pCurrentUsageMap` on the heap. -/
def mutateCurrent (s : ManagerState) (f : UsageMap → UsageMap) : ManagerState :=
  match s.pCurrentUsageMap with
  | none => s
  | some cid =>
      { s with mapStore :=
          alistSet s.mapStore cid (f ((alistFind s.mapStore cid).getD [])) }

/-- Write `CaloHit::m_isAvailable` of one hit in the ground truth. -/
def writeAvail (avail : HitId → Bool) (h : HitId) (v : Bool) : HitId → Bool :=
  fun h' => if h' = h then v else avail h'

/-- Fold of `writeAvail` over the entries of a usage map, in iteration
order (terminal `ApplyCaloHitUsageMap` write-back loop, lines 393-397). -/
def writeAvailList (avail : HitId → Bool) (l : UsageMap) : HitId → Bool :=
  l.foldl (fun a kv => writeAvail a kv.1 kv.2) avail

/-- `CaloHitHelper::IsCaloHitAvailable` (lines 30-41). -/
def IsCaloHitAvailable (avail : HitId → Bool) (s : ManagerState) (h : HitId) :
    Bool :=
  if s.nReclusteringProcesses = 0 then avail h
  else
    match alistFind (currentMap s) h with
    | none => false
    | some b => b

/-- `CaloHitHelper::SetCaloHitAvailability(CaloHit*, bool)` (lines 271-287).
Returns the status code, the new ground truth and the new manager state. -/
def SetCaloHitAvailability (avail : HitId → Bool) (s : ManagerState)
    (h : HitId) (isAvailable : Bool) :
    StatusCode × (HitId → Bool) × ManagerState :=
  if s.nReclusteringProcesses = 0 then
    (SUCCESS, writeAvail avail h isAvailable, s)
  else
    match alistFind (currentMap s) h with
    | none => (NOT_FOUND, avail, s)
    | some _ => (SUCCESS, avail, mutateCurrent s (fun m => alistSet m h isAvailable))

/-- Loop shared (textually identical in the source) by the depth ≥ 1 branch
of `SetCaloHitAvailability(CaloHitList&, bool)` (lines 301-309) and the
merge loop of `ApplyCaloHitUsageMap` (lines 406-415): write each (hit,
value) pair into the current usage map, stopping with failure at the first
hit that is not a key of it. -/
def setLoop : ManagerState → List (HitId × Bool) → Bool × ManagerState
  | s, [] => (true, s)
  | s, kv :: t =>
    match alistFind (currentMap s) kv.1 with
    | none => (false, s)
    | some _ => setLoop (mutateCurrent s (fun m => alistSet m kv.1 kv.2)) t

/-- `CaloHitHelper::SetCaloHitAvailability(CaloHitList&, bool)`
(lines 291-312); the list argument carries the set's iteration order. -/
def SetCaloHitAvailabilityList (avail : HitId → Bool) (s : ManagerState)
    (caloHitList : List HitId) (isAvailable : Bool) :
    StatusCode × (HitId → Bool) × ManagerState :=
  if s.nReclusteringProcesses = 0 then
    (SUCCESS, caloHitList.foldl (fun a h => writeAvail a h isAvailable) avail, s)
  else
    match setLoop s (caloHitList.map (fun h => (h, isAvailable))) with
    | (true, s') => (SUCCESS, avail, s')
    | (false, s') => (NOT_FOUND, avail, s')

/-- An `OrderedCaloHitList`: ordered mapping pseudolayer → hit list. -/
abbrev OrderedCaloHitList := List (Nat × List HitId)

/-- The `std::set` insertion used when collecting unavailable hits
(`unavailableHits.insert`, line 98): membership-based, no duplicates. -/
def insertHitSet (l : List HitId) (h : HitId) : List HitId :=
  if h ∈ l then l else l ++ [h]

/-- The collection loop of
`CaloHitHelper::RemoveUnavailableCaloHits(OrderedCaloHitList&)`
(lines 92-101). -/
def collectUnavailable (avail : HitId → Bool) (s : ManagerState)
    (orderedCaloHitList : OrderedCaloHitList) : List HitId :=
  orderedCaloHitList.foldl
    (fun acc layer =>
      layer.2.foldl
        (fun acc2 h =>
          if IsCaloHitAvailable avail s h then acc2 else insertHitSet acc2 h)
        acc)
    []

/-- Modelled from the spec: `OrderedCaloHitList::Remove` is not part of the
supplied sources (only its caller is); per spec §6 the layer index supplies
"a removal operation accepting a set of hits to discard, returning a
success/failure signal", and §4.1 says the caller "removes them from the
layer index structure".  Modelled as removing every listed hit from every
layer, always succeeding. -/
def orderedListRemove (orderedCaloHitList : OrderedCaloHitList)
    (hits : List HitId) : StatusCode × OrderedCaloHitList :=
  (SUCCESS,
    orderedCaloHitList.map (fun layer =>
      (layer.1, layer.2.filter (fun h => decide (h ∉ hits)))))

/-- `CaloHitHelper::RemoveUnavailableCaloHits(OrderedCaloHitList&)`
(lines 88-109). -/
def RemoveUnavailableCaloHits (avail : HitId → Bool) (s : ManagerState)
    (orderedCaloHitList : OrderedCaloHitList) :
    StatusCode × OrderedCaloHitList :=
  let unavailableHits := collectUnavailable avail s orderedCaloHitList
  if unavailableHits.isEmpty then (SUCCESS, orderedCaloHitList)
  else
    match orderedListRemove orderedCaloHitList unavailableHits with
    | (SUCCESS, ol') => (SUCCESS, ol')
    | (c, ol') => (c, ol')

/-- Seeding loop of `CreateInitialCaloHitUsageMap` (lines 343-351): insert
each hit with value `false` into the freshly allocated current map; a
failing `map::insert` (duplicate hit) aborts with failure. -/
def seedLoop : ManagerState → List HitId → Bool × ManagerState
  | s, [] => (true, s)
  | s, h :: t =>
    match alistFind (currentMap s) h with
    | some _ => (false, s)
    | none => seedLoop (mutateCurrent s (fun m => m ++ [(h, false)])) t

/-- `CaloHitHelper::CreateInitialCaloHitUsageMap(name, OrderedCaloHitList*)`
(lines 333-356).  The nested layer/hit seeding loops are flattened into one
list of hits in iteration order. -/
def CreateInitialCaloHitUsageMap (usageMapName : String)
    (pOrderedCaloHitList : OrderedCaloHitList) (s : ManagerState) :
    StatusCode × ManagerState :=
  let s1 :=
    { s with
      nReclusteringProcesses := s.nReclusteringProcesses + 1
      parentCaloHitUsageMaps :=
        if 0 < s.nReclusteringProcesses then
          s.parentCaloHitUsageMaps ++ [s.pCurrentUsageMap]
        else s.parentCaloHitUsageMaps }
  let newId := s1.nextMapId
  let s2 :=
    { s1 with
      pCurrentUsageMap := some newId
      mapStore := s1.mapStore ++ [(newId, [])]
      nextMapId := newId + 1 }
  if (alistFind s2.nameToCaloHitUsageMap usageMapName).isSome then
    (FAILURE, s2)
  else
    let s3 :=
      { s2 with nameToCaloHitUsageMap :=
          s2.nameToCaloHitUsageMap ++ [(usageMapName, newId)] }
    match seedLoop s3 ((pOrderedCaloHitList.map Prod.snd).flatten) with
    | (false, s4) => (FAILURE, s4)
    | (true, s4) =>
        (SUCCESS,
          { s4 with nestedUsageMapNames :=
              s4.nestedUsageMapNames ++ [[usageMapName]] })

/-- Append a name to the name-history of the most recent nesting level
(`m_nestedUsageMapNames.back()->push_back(name)`, line 374). -/
def appendToBack : List (List String) → String → List (List String)
  | [], _ => []
  | [l], n => [l ++ [n]]
  | l :: t, n => l :: appendToBack t n

/-- `CaloHitHelper::CreateAdditionalCaloHitUsageMap` (lines 360-377). -/
def CreateAdditionalCaloHitUsageMap (usageMapName : String)
    (s : ManagerState) : StatusCode × ManagerState :=
  if s.nReclusteringProcesses = 0 then (NOT_ALLOWED, s)
  else
    let cloneId := s.nextMapId
    let cloneContents := currentMap s
    let s1 :=
      { s with
        mapStore := s.mapStore ++ [(cloneId, cloneContents)]
        nextMapId := cloneId + 1 }
    if (alistFind s1.nameToCaloHitUsageMap usageMapName).isSome then
      (FAILURE, s1)
    else
      (SUCCESS,
        { s1 with
          nameToCaloHitUsageMap :=
            s1.nameToCaloHitUsageMap ++ [(usageMapName, cloneId)]
          mapStore :=
            alistSet s1.mapStore cloneId
              (cloneContents.map (fun kv => (kv.1, true)))
          pCurrentUsageMap := some cloneId
          nestedUsageMapNames := appendToBack s1.nestedUsageMapNames usageMapName })

/-- `CaloHitHelper::ClearCaloHitUsageMaps` (lines 425-444): delete every
registered map, clear the registry, parent stack and name history, then
null the current pointer and reset the depth counter. -/
def ClearCaloHitUsageMaps (s : ManagerState) : StatusCode × ManagerState :=
  let registeredIds := s.nameToCaloHitUsageMap.map Prod.snd
  let s1 :=
    { s with
      mapStore := s.mapStore.filter (fun e => decide (e.1 ∉ registeredIds))
      nameToCaloHitUsageMap := []
      parentCaloHitUsageMaps := []
      nestedUsageMapNames := [] }
  if ¬ s1.nameToCaloHitUsageMap.isEmpty ∨ ¬ s1.parentCaloHitUsageMaps.isEmpty ∨
      ¬ s1.nestedUsageMapNames.isEmpty then
    (FAILURE, s1)
  else
    (SUCCESS, { s1 with pCurrentUsageMap := none, nReclusteringProcesses := 0 })

/-- Erasure loop of `ClearMostRecentCaloHitUsageMaps` (lines 452-461):
for each recorded name, look it up in the registry (failure if absent),
delete the map and erase the registry entry. -/
def eraseNamesLoop : ManagerState → List String → Bool × ManagerState
  | s, [] => (true, s)
  | s, n :: t =>
    match alistFind s.nameToCaloHitUsageMap n with
    | none => (false, s)
    | some mid =>
        eraseNamesLoop
          { s with
            mapStore := alistErase s.mapStore mid
            nameToCaloHitUsageMap := alistErase s.nameToCaloHitUsageMap n }
          t

/-- `CaloHitHelper::ClearMostRecentCaloHitUsageMaps` (lines 448-467). -/
def ClearMostRecentCaloHitUsageMaps (s : ManagerState) :
    StatusCode × ManagerState :=
  let usageMapNames := (s.nestedUsageMapNames.getLast?).getD []
  match eraseNamesLoop s usageMapNames with
  | (false, s1) => (NOT_FOUND, s1)
  | (true, s1) =>
      (SUCCESS, { s1 with nestedUsageMapNames := s1.nestedUsageMapNames.dropLast })

/-- `CaloHitHelper::ApplyCaloHitUsageMap` (lines 381-421). -/
def ApplyCaloHitUsageMap (usageMapName : String) (avail : HitId → Bool)
    (s : ManagerState) : StatusCode × (HitId → Bool) × ManagerState :=
  if s.nReclusteringProcesses = 0 then (NOT_ALLOWED, avail, s)
  else
    match alistFind s.nameToCaloHitUsageMap usageMapName with
    | none => (NOT_FOUND, avail, s)
    | some mid =>
      let um := (alistFind s.mapStore mid).getD []
      if s.nReclusteringProcesses = 1 then
        let avail2 := writeAvailList avail um
        match ClearCaloHitUsageMaps
            { s with nReclusteringProcesses := s.nReclusteringProcesses - 1 } with
        | (SUCCESS, s2) => (SUCCESS, avail2, s2)
        | (c, s2) => (c, avail2, s2)
      else
        let s1 :=
          { s with
            nReclusteringProcesses := s.nReclusteringProcesses - 1
            pCurrentUsageMap := (s.parentCaloHitUsageMaps.getLast?).getD none
            parentCaloHitUsageMaps := s.parentCaloHitUsageMaps.dropLast }
        match setLoop s1 um with
        | (false, s2) => (FAILURE, avail, s2)
        | (true, s2) =>
          match ClearMostRecentCaloHitUsageMaps s2 with
          | (SUCCESS, s3) => (SUCCESS, avail, s3)
          | (c, s3) => (c, avail, s3)

/-- Hit type enumeration (Objects/CaloHit.h). -/
inductive HitType where
  | ECAL
  | HCAL
  | MUON
  deriving DecidableEq

/-- The part of a `CaloHit` read or written by
`ApplySimpleIsolationScheme`: its type tag, the derived fields and the
ground-truth availability flag. -/
structure IsoCaloHit where
  hitType : HitType
  densityWeight : ℚ
  isolated : Bool
  possibleMip : Bool
  surroundingEnergy : ℚ
  isAvailable : Bool
  deriving DecidableEq

/-- The settings read by `ApplySimpleIsolationScheme`. -/
structure IsolationSettings where
  isolationDensityWeightCutECal : ℚ
  isolationDensityWeightCutHCal : ℚ
  deriving DecidableEq

/-- `CaloHitHelper::ApplySimpleIsolationScheme` (lines 551-564): the C++
loop mutates each hit in place; the embedding returns the updated hits in
order. -/
def ApplySimpleIsolationScheme (st : IsolationSettings)
    (caloHitVector : List IsoCaloHit) : List IsoCaloHit :=
  caloHitVector.map (fun pCaloHit =>
    let isolationDensityWeightCut :=
      if pCaloHit.hitType = HitType.ECAL then st.isolationDensityWeightCutECal
      else st.isolationDensityWeightCutHCal
    if pCaloHit.densityWeight < isolationDensityWeightCut then
      { pCaloHit with isolated := true }
    else pCaloHit)

/-- `pandora::CartesianVector` (Objects/CartesianVector.cc); `float` is
modelled as ℝ. -/
structure CartesianVector where
  x : ℝ
  y : ℝ
  z : ℝ

/-- `CartesianVector::GetMagnitudeSquared` (CartesianVector.cc line 50). -/
def CartesianVector.GetMagnitudeSquared (v : CartesianVector) : ℝ :=
  v.x * v.x + v.y * v.y + v.z * v.z

/-- `CartesianVector::GetMagnitude` (CartesianVector.cc line 43). -/
noncomputable def CartesianVector.GetMagnitude (v : CartesianVector) : ℝ :=
  Real.sqrt v.GetMagnitudeSquared

/-- `CartesianVector::GetCrossProduct` (CartesianVector.cc line 64). -/
def CartesianVector.GetCrossProduct (v rhs : CartesianVector) :
    CartesianVector :=
  ⟨v.y * rhs.z - rhs.y * v.z, v.z * rhs.x - rhs.z * v.x,
    v.x * rhs.y - rhs.x * v.y⟩

/-- `operator-` on CartesianVector (CartesianVector.cc line 108). -/
def CartesianVector.vsub (lhs rhs : CartesianVector) : CartesianVector :=
  ⟨lhs.x - rhs.x, lhs.y - rhs.y, lhs.z - rhs.z⟩

/-- A `CaloHit` as seen by `GetDensityWeightContribution`: its pointer
identity and its position vector. -/
structure GeomHit where
  id : Nat
  pos : CartesianVector

/-- The settings read by `GetDensityWeightContribution` (lines 115-117). -/
structure DensitySettings where
  caloHitMaxSeparation : ℝ
  densityWeightPower : ℕ

/-- `CaloHitHelper::GetDensityWeightContribution` (lines 113-148).
`none` models the thrown `StatusCodeException(STATUS_CODE_FAILURE)`; the
source's `rN` multiply-loop computes `r ^ densityWeightPower`. -/
noncomputable def GetDensityWeightContribution (st : DensitySettings)
    (pCaloHit : GeomHit) : List GeomHit → Option ℝ
  | [] => some 0
  | other :: rest =>
    if pCaloHit.id = other.id then
      GetDensityWeightContribution st pCaloHit rest
    else
      let positionDifference := pCaloHit.pos.vsub other.pos
      if positionDifference.GetMagnitudeSquared >
          st.caloHitMaxSeparation * st.caloHitMaxSeparation then
        GetDensityWeightContribution st pCaloHit rest
      else
        let crossProduct := pCaloHit.pos.GetCrossProduct positionDifference
        let r := crossProduct.GetMagnitude / pCaloHit.pos.GetMagnitude
        let rN := r ^ st.densityWeightPower
        if rN = 0 then none
        else
          (GetDensityWeightContribution st pCaloHit rest).map
            (fun acc => acc + 100 / rN)

/-- Overwriting the entries of a usage map with a list of (key, value)
pairs, in order: the functional result of a completed `setLoop`. -/
def writeList (m : UsageMap) (l : List (HitId × Bool)) : UsageMap :=
  l.foldl (fun acc kv => alistSet acc kv.1 kv.2) m

/-- Concrete manager state for the C1 witness: depth 1, one overlay "a"
holding hits 0 ↦ true and 1 ↦ false. -/
def c1State : ManagerState :=
  { nReclusteringProcesses := 1
    pCurrentUsageMap := some 0
    parentCaloHitUsageMaps := []
    nestedUsageMapNames := [["a"]]
    nameToCaloHitUsageMap := [("a", 0)]
    mapStore := [(0, [(0, true), (1, false)])]
    nextMapId := 1 }

/-- Concrete manager state for the C2 witness: depth 1 with overlay "a"
registered. -/
def c2State : ManagerState :=
  { nReclusteringProcesses := 1
    pCurrentUsageMap := some 0
    parentCaloHitUsageMaps := []
    nestedUsageMapNames := [["a"]]
    nameToCaloHitUsageMap := [("a", 0)]
    mapStore := [(0, [(0, false)])]
    nextMapId := 1 }

/-- The sibling-isolation scenario of C3, run step by step:
CreateInitial("h0", {hit 0, hit 1}), CreateAdditional("h1"),
SetAvailability(hit 0, false), Apply("h1"); all hits start available. -/
def c3Run : StatusCode × (HitId → Bool) × ManagerState :=
  ApplyCaloHitUsageMap "h1" (fun _ => true)
    (SetCaloHitAvailability (fun _ => true)
      (CreateAdditionalCaloHitUsageMap "h1"
        (CreateInitialCaloHitUsageMap "h0" [(0, [0, 1])] initState).2).2
      0 false).2.2

/-- Concrete manager state for the C4 witness: the spec's nested
commit-to-parent scenario right before Apply("child") — depth 2, overlays
"root" (map 0), "branch" (map 1, the saved parent of the inner level) and
"child" (map 2, current, with hit 0 set unavailable). -/
def c4State : ManagerState :=
  { nReclusteringProcesses := 2
    pCurrentUsageMap := some 2
    parentCaloHitUsageMaps := [some 1]
    nestedUsageMapNames := [["root", "branch"], ["child"]]
    nameToCaloHitUsageMap := [("root", 0), ("branch", 1), ("child", 2)]
    mapStore := [(0, [(0, false)]), (1, [(0, true)]), (2, [(0, false)])]
    nextMapId := 3 }

/-- Concrete manager state for the C6 witness: depth 1, current overlay
holding hits 0 ↦ true and 1 ↦ true. -/
def c6State : ManagerState :=
  { nReclusteringProcesses := 1
    pCurrentUsageMap := some 0
    parentCaloHitUsageMaps := []
    nestedUsageMapNames := [["a"]]
    nameToCaloHitUsageMap := [("a", 0)]
    mapStore := [(0, [(0, true), (1, true)])]
    nextMapId := 1 }

/-- Concrete manager state for the C7 counterexample and witness: depth 1
with overlay "a" registered and current. -/
def c7State : ManagerState :=
  { nReclusteringProcesses := 1
    pCurrentUsageMap := some 0
    parentCaloHitUsageMaps := []
    nestedUsageMapNames := [["a"]]
    nameToCaloHitUsageMap := [("a", 0)]
    mapStore := [(0, [(0, false)])]
    nextMapId := 1 }

theorem alistFind_set {α β : Type} [DecidableEq α] (l : List (α × β))
    (k : α) (v : β) (k' : α) :
    alistFind (alistSet l k v) k' =
      if k' = k then (alistFind l k).map (fun _ => v) else alistFind l k' := by
  induction l with
  | nil => by_cases h : k' = k <;> simp [alistFind, alistSet, h]
  | cons kv t ih =>
    simp only [alistSet, List.map_cons] at ih ⊢
    by_cases h1 : kv.1 = k
    · by_cases h2 : k' = k
      · subst h2; simp [alistFind, h1]
      · simp [alistFind, h1, h2, ih, Ne.symm h2]
    · by_cases h2 : k' = k
      · subst h2; simp [alistFind, h1, ih]
      · simp [alistFind, h1, h2, ih]

theorem alistSet_set {α β : Type} [DecidableEq α] (l : List (α × β))
    (k : α) (v v' : β) :
    alistSet (alistSet l k v) k v' = alistSet l k v' := by
  simp only [alistSet, List.map_map]
  refine List.map_congr_left (fun kv _ => ?_)
  by_cases h : kv.1 = k <;> simp [Function.comp, h]

theorem alistFind_erase {α β : Type} [DecidableEq α] (l : List (α × β))
    (k k' : α) :
    alistFind (alistErase l k) k' =
      if k' = k then none else alistFind l k' := by
  induction l with
  | nil => by_cases h : k' = k <;> simp [alistFind, alistErase, h]
  | cons kv t ih =>
    simp only [alistErase, List.filter_cons, ne_eq, decide_not] at ih ⊢
    by_cases h1 : kv.1 = k
    · by_cases h2 : k' = k
      · subst h2; simp [alistFind, h1, ih]
      · simp [alistFind, h1, h2, ih, Ne.symm h2, fun h : kv.1 = k' => h2 (h ▸ h1)]
    · by_cases h2 : k' = k
      · subst h2
        have h3 : ¬ kv.1 = k' := h1
        simp [alistFind, h1, h3, ih]
      · simp [alistFind, h1, h2, ih]

theorem writeAvailList_not_mem (l : UsageMap) :
    ∀ (a : HitId → Bool) (k : HitId), k ∉ l.map Prod.fst →
      writeAvailList a l k = a k := by
  induction l with
  | nil => intro a k _; rfl
  | cons kv t ih =>
    intro a k hk
    simp only [List.map_cons, List.mem_cons] at hk
    push_neg at hk
    show writeAvailList (writeAvail a kv.1 kv.2) t k = a k
    rw [ih _ _ hk.2]
    simp [writeAvail, hk.1]

theorem writeAvailList_mem (l : UsageMap) :
    ∀ (a : HitId → Bool) (kv : HitId × Bool), (l.map Prod.fst).Nodup →
      kv ∈ l → writeAvailList a l kv.1 = kv.2 := by
  induction l with
  | nil => intro a kv _ h; cases h
  | cons kv' t ih =>
    intro a kv hnd hmem
    simp only [List.map_cons, List.nodup_cons] at hnd
    rcases List.mem_cons.mp hmem with h | h
    · subst h
      show writeAvailList (writeAvail a kv.1 kv.2) t kv.1 = kv.2
      rw [writeAvailList_not_mem t _ _ hnd.1]
      simp [writeAvail]
    · exact ih _ _ hnd.2 h

theorem writeList_not_mem (l : List (HitId × Bool)) :
    ∀ (m : UsageMap) (k : HitId), k ∉ l.map Prod.fst →
      alistFind (writeList m l) k = alistFind m k := by
  induction l with
  | nil => intros; rfl
  | cons kv t ih =>
    intro m k hk
    simp only [List.map_cons, List.mem_cons] at hk
    push_neg at hk
    show alistFind (writeList (alistSet m kv.1 kv.2) t) k = alistFind m k
    rw [ih _ _ hk.2, alistFind_set, if_neg hk.1]

theorem writeList_mem (l : List (HitId × Bool)) :
    ∀ (m : UsageMap) (kv : HitId × Bool), (l.map Prod.fst).Nodup →
      kv ∈ l → (alistFind m kv.1).isSome →
      alistFind (writeList m l) kv.1 = some kv.2 := by
  induction l with
  | nil => intro m kv _ h; cases h
  | cons kv' t ih =>
    intro m kv hnd hmem hsome
    simp only [List.map_cons, List.nodup_cons] at hnd
    rcases List.mem_cons.mp hmem with h | h
    · subst h
      show alistFind (writeList (alistSet m kv.1 kv.2) t) kv.1 = some kv.2
      rw [writeList_not_mem t _ _ hnd.1, alistFind_set, if_pos rfl]
      rcases Option.isSome_iff_exists.mp hsome with ⟨b, hb⟩
      rw [hb]; rfl
    · refine ih _ _ hnd.2 h ?_
      rw [alistFind_set]
      by_cases hh : kv.1 = kv'.1
      · rw [if_pos hh]
        simpa [← hh] using hsome
      · rw [if_neg hh]; exact hsome

theorem writeList_const_pres (hits : List HitId) :
    ∀ (m : UsageMap) (p : HitId) (v : Bool), alistFind m p = some v →
      alistFind (writeList m (hits.map (fun h => (h, v)))) p = some v := by
  induction hits with
  | nil => intro m p v h; exact h
  | cons q t ih =>
    intro m p v h
    show alistFind (writeList (alistSet m q v) (t.map (fun h => (h, v)))) p = some v
    refine ih _ _ _ ?_
    rw [alistFind_set]
    by_cases hh : p = q
    · rw [if_pos hh, ← hh, h]; rfl
    · rw [if_neg hh]; exact h

theorem writeList_const_mem (hits : List HitId) :
    ∀ (m : UsageMap) (p : HitId) (v : Bool), p ∈ hits →
      (alistFind m p).isSome →
      alistFind (writeList m (hits.map (fun h => (h, v)))) p = some v := by
  induction hits with
  | nil => intro m p v h; cases h
  | cons q t ih =>
    intro m p v hmem hsome
    show alistFind (writeList (alistSet m q v) (t.map (fun h => (h, v)))) p = some v
    rcases List.mem_cons.mp hmem with h | h
    · subst h
      refine writeList_const_pres t _ _ _ ?_
      rw [alistFind_set, if_pos rfl]
      rcases Option.isSome_iff_exists.mp hsome with ⟨b, hb⟩
      rw [hb]; rfl
    · refine ih _ _ _ h ?_
      rw [alistFind_set]
      by_cases hh : p = q
      · rw [if_pos hh]
        simpa [← hh] using hsome
      · rw [if_neg hh]; exact hsome

theorem setLoop_found (t : List (HitId × Bool)) :
    ∀ (s : ManagerState) (cid : MapId) (m : UsageMap),
      s.pCurrentUsageMap = some cid →
      alistFind s.mapStore cid = some m →
      (∀ kv ∈ t, (alistFind m kv.1).isSome) →
      (setLoop s t).1 = true ∧
      (setLoop s t).2.nReclusteringProcesses = s.nReclusteringProcesses ∧
      (setLoop s t).2.pCurrentUsageMap = s.pCurrentUsageMap ∧
      (setLoop s t).2.parentCaloHitUsageMaps = s.parentCaloHitUsageMaps ∧
      (setLoop s t).2.nestedUsageMapNames = s.nestedUsageMapNames ∧
      (setLoop s t).2.nameToCaloHitUsageMap = s.nameToCaloHitUsageMap ∧
      alistFind (setLoop s t).2.mapStore cid = some (writeList m t) ∧
      (∀ j, j ≠ cid →
        alistFind (setLoop s t).2.mapStore j = alistFind s.mapStore j) := by
  induction t with
  | nil =>
    intro s cid m _ hfind _
    exact ⟨rfl, rfl, rfl, rfl, rfl, rfl, hfind, fun _ _ => rfl⟩
  | cons kv t ih =>
    intro s cid m hcur hfind hall
    have hm : currentMap s = m := by simp [currentMap, hcur, hfind]
    rcases Option.isSome_iff_exists.mp (hall kv (List.mem_cons_self _ _)) with ⟨b, hb⟩
    have hstep : setLoop s (kv :: t) =
        setLoop (mutateCurrent s (fun m0 => alistSet m0 kv.1 kv.2)) t := by
      simp [setLoop, hm, hb]
    have hcur' : (mutateCurrent s (fun m0 => alistSet m0 kv.1 kv.2)).pCurrentUsageMap =
        some cid := by
      simp [mutateCurrent, hcur]
    have hstore' : (mutateCurrent s (fun m0 => alistSet m0 kv.1 kv.2)).mapStore =
        alistSet s.mapStore cid (alistSet m kv.1 kv.2) := by
      simp [mutateCurrent, hcur, hfind]
    have hfind' : alistFind (mutateCurrent s
        (fun m0 => alistSet m0 kv.1 kv.2)).mapStore cid =
        some (alistSet m kv.1 kv.2) := by
      rw [hstore', alistFind_set, if_pos rfl, hfind]; rfl
    have hall' : ∀ kv' ∈ t, (alistFind (alistSet m kv.1 kv.2) kv'.1).isSome := by
      intro kv' hkv'
      rw [alistFind_set]
      by_cases hh : kv'.1 = kv.1
      · rw [if_pos hh]
        simp [hb]
      · rw [if_neg hh]; exact hall kv' (List.mem_cons_of_mem _ hkv')
    obtain ⟨c1, c2, c3, c4, c5, c6, c7, c8⟩ :=
      ih (mutateCurrent s (fun m0 => alistSet m0 kv.1 kv.2)) cid
        (alistSet m kv.1 kv.2) hcur' hfind' hall'
    rw [hstep]
    refine ⟨c1, ?_, ?_, ?_, ?_, ?_, c7, ?_⟩
    · rw [c2]; simp [mutateCurrent, hcur]
    · rw [c3]; exact hcur'.trans hcur.symm
    · rw [c4]; simp [mutateCurrent, hcur]
    · rw [c5]; simp [mutateCurrent, hcur]
    · rw [c6]; simp [mutateCurrent, hcur]
    · intro j hj
      rw [c8 j hj, hstore', alistFind_set, if_neg hj]

theorem setLoop_missing (t : List (HitId × Bool)) :
    ∀ (s : ManagerState) (cid : MapId) (m : UsageMap),
      s.pCurrentUsageMap = some cid →
      alistFind s.mapStore cid = some m →
      (∃ kv ∈ t, alistFind m kv.1 = none) →
      (setLoop s t).1 = false := by
  induction t with
  | nil => intro s cid m _ _ h; rcases h with ⟨kv, hkv, _⟩; cases hkv
  | cons kv t ih =>
    intro s cid m hcur hfind hex
    have hm : currentMap s = m := by simp [currentMap, hcur, hfind]
    by_cases hb : alistFind m kv.1 = none
    · simp [setLoop, hm, hb]
    · rcases Option.ne_none_iff_exists'.mp hb with ⟨b, hb'⟩
      have hstep : setLoop s (kv :: t) =
          setLoop (mutateCurrent s (fun m0 => alistSet m0 kv.1 kv.2)) t := by
        simp [setLoop, hm, hb']
      have hcur' : (mutateCurrent s (fun m0 => alistSet m0 kv.1 kv.2)).pCurrentUsageMap =
          some cid := by
        simp [mutateCurrent, hcur]
      have hfind' : alistFind (mutateCurrent s
          (fun m0 => alistSet m0 kv.1 kv.2)).mapStore cid =
          some (alistSet m kv.1 kv.2) := by
        simp [mutateCurrent, hcur, hfind]
        rw [alistFind_set, if_pos rfl, hfind]; rfl
      have hex' : ∃ kv' ∈ t, alistFind (alistSet m kv.1 kv.2) kv'.1 = none := by
        rcases hex with ⟨kv', hkv', hnone⟩
        rcases List.mem_cons.mp hkv' with h | h
        · exact absurd (h ▸ hnone) hb
        · refine ⟨kv', h, ?_⟩
          rw [alistFind_set]
          by_cases hh : kv'.1 = kv.1
          · exact absurd (hh ▸ hnone) hb
          · rw [if_neg hh]; exact hnone
      rw [hstep]
      exact ih _ cid (alistSet m kv.1 kv.2) hcur' hfind' hex'

theorem setLoop_first_missing (pre : List (HitId × Bool)) :
    ∀ (s : ManagerState) (cid : MapId) (m : UsageMap) (bad : HitId × Bool)
      (rest : List (HitId × Bool)),
      s.pCurrentUsageMap = some cid →
      alistFind s.mapStore cid = some m →
      (∀ kv ∈ pre, (alistFind m kv.1).isSome) →
      alistFind m bad.1 = none →
      (setLoop s (pre ++ bad :: rest)).1 = false ∧
      (setLoop s (pre ++ bad :: rest)).2.pCurrentUsageMap = s.pCurrentUsageMap ∧
      alistFind (setLoop s (pre ++ bad :: rest)).2.mapStore cid =
        some (writeList m pre) := by
  induction pre with
  | nil =>
    intro s cid m bad rest hcur hfind _ hbad
    have hm : currentMap s = m := by simp [currentMap, hcur, hfind]
    simp only [List.nil_append]
    constructor
    · simp [setLoop, hm, hbad]
    · constructor
      · simp [setLoop, hm, hbad]
      · simp only [setLoop, hm, hbad]
        exact hfind
  | cons kv pre ih =>
    intro s cid m bad rest hcur hfind hall hbad
    have hm : currentMap s = m := by simp [currentMap, hcur, hfind]
    rcases Option.isSome_iff_exists.mp (hall kv (List.mem_cons_self _ _)) with ⟨b, hb⟩
    have hstep : setLoop s ((kv :: pre) ++ bad :: rest) =
        setLoop (mutateCurrent s (fun m0 => alistSet m0 kv.1 kv.2))
          (pre ++ bad :: rest) := by
      simp [setLoop, hm, hb]
    have hcur' : (mutateCurrent s (fun m0 => alistSet m0 kv.1 kv.2)).pCurrentUsageMap =
        some cid := by
      simp [mutateCurrent, hcur]
    have hfind' : alistFind (mutateCurrent s
        (fun m0 => alistSet m0 kv.1 kv.2)).mapStore cid =
        some (alistSet m kv.1 kv.2) := by
      simp [mutateCurrent, hcur, hfind]
      rw [alistFind_set, if_pos rfl, hfind]; rfl
    have hall' : ∀ kv' ∈ pre, (alistFind (alistSet m kv.1 kv.2) kv'.1).isSome := by
      intro kv' hkv'
      rw [alistFind_set]
      by_cases hh : kv'.1 = kv.1
      · rw [if_pos hh]; simp [hb]
      · rw [if_neg hh]; exact hall kv' (List.mem_cons_of_mem _ hkv')
    have hbad' : alistFind (alistSet m kv.1 kv.2) bad.1 = none := by
      rw [alistFind_set]
      by_cases hh : bad.1 = kv.1
      · exact absurd (hh ▸ hb) (by simp [hbad])
      · rw [if_neg hh]; exact hbad
    obtain ⟨c1, c2, c3⟩ :=
      ih (mutateCurrent s (fun m0 => alistSet m0 kv.1 kv.2)) cid
        (alistSet m kv.1 kv.2) bad rest hcur' hfind' hall' hbad'
    rw [hstep]
    exact ⟨c1, c2.trans (hcur'.trans hcur.symm), c3⟩

theorem eraseNamesLoop_spec (lvl : List String) :
    ∀ (s : ManagerState),
      lvl.Nodup →
      (∀ n ∈ lvl, (alistFind s.nameToCaloHitUsageMap n).isSome) →
      (eraseNamesLoop s lvl).1 = true ∧
      (eraseNamesLoop s lvl).2.nReclusteringProcesses = s.nReclusteringProcesses ∧
      (eraseNamesLoop s lvl).2.pCurrentUsageMap = s.pCurrentUsageMap ∧
      (eraseNamesLoop s lvl).2.parentCaloHitUsageMaps = s.parentCaloHitUsageMaps ∧
      (eraseNamesLoop s lvl).2.nestedUsageMapNames = s.nestedUsageMapNames ∧
      (∀ n, alistFind (eraseNamesLoop s lvl).2.nameToCaloHitUsageMap n =
        if n ∈ lvl then none else alistFind s.nameToCaloHitUsageMap n) ∧
      (∀ j, (∀ n ∈ lvl, alistFind s.nameToCaloHitUsageMap n ≠ some j) →
        alistFind (eraseNamesLoop s lvl).2.mapStore j =
          alistFind s.mapStore j) := by
  induction lvl with
  | nil =>
    intro s _ _
    exact ⟨rfl, rfl, rfl, rfl, rfl, fun n => by simp [eraseNamesLoop],
      fun j _ => rfl⟩
  | cons n t ih =>
    intro s hnd hall
    simp only [List.nodup_cons] at hnd
    rcases Option.isSome_iff_exists.mp (hall n (List.mem_cons_self _ _)) with
      ⟨mid, hmid⟩
    have hstep : eraseNamesLoop s (n :: t) =
        eraseNamesLoop
          { s with
            mapStore := alistErase s.mapStore mid
            nameToCaloHitUsageMap := alistErase s.nameToCaloHitUsageMap n } t := by
      simp [eraseNamesLoop, hmid]
    set s' :=
      { s with
        mapStore := alistErase s.mapStore mid
        nameToCaloHitUsageMap := alistErase s.nameToCaloHitUsageMap n } with hs'
    have hall' : ∀ n' ∈ t, (alistFind s'.nameToCaloHitUsageMap n').isSome := by
      intro n' hn'
      have hne : n' ≠ n := fun h => hnd.1 (h ▸ hn')
      simp only [hs', alistFind_erase, if_neg hne]
      exact hall n' (List.mem_cons_of_mem _ hn')
    obtain ⟨c1, c2, c3, c4, c5, c6, c7⟩ := ih s' hnd.2 hall'
    rw [hstep]
    refine ⟨c1, c2, c3, c4, c5, ?_, ?_⟩
    · intro n'
      rw [c6 n']
      by_cases h1 : n' ∈ t
      · simp [h1]
      · by_cases h2 : n' = n
        · subst h2
          simp [h1, hs', alistFind_erase]
        · simp only [hs', alistFind_erase, if_neg h2]
          simp [List.mem_cons, h1, h2]
    · intro j hj
      have hjn : mid ≠ j := by
        intro h
        exact hj n (List.mem_cons_self _ _) (h ▸ hmid)
      rw [c7 j ?_]
      · simp only [hs', alistFind_erase, if_neg (Ne.symm hjn)]
      · intro n' hn'
        have hne : n' ≠ n := fun h => hnd.1 (h ▸ hn')
        simp only [hs', alistFind_erase, if_neg hne]
        exact hj n' (List.mem_cons_of_mem _ hn')

/-- C5: for every hit, `IsCaloHitAvailable` returns the hit's stored
ground-truth flag at depth 0; at depth ≥ 1 it returns the value mapped to
the hit in the current overlay, and `false` (without error) whenever the
hit is not a key of the current overlay. -/
theorem C5_is_available_routing (avail : HitId → Bool) (s : ManagerState)
    (h : HitId) :
    IsCaloHitAvailable avail s h =
      if s.nReclusteringProcesses = 0 then avail h
      else (alistFind (currentMap s) h).getD false := by
  unfold IsCaloHitAvailable
  by_cases hd : s.nReclusteringProcesses = 0
  · simp [hd]
  · simp only [if_neg hd]
    cases alistFind (currentMap s) h <;> rfl

/-- C10: `ApplySimpleIsolationScheme` only ever sets isolated flags to
`true`: a hit whose density weight is at or above its type-dependent
threshold is left completely unchanged, and for every hit the availability
flag, density weight, surrounding energy and possible-MIP flag are
untouched. -/
theorem C10_simple_isolation_frame (st : IsolationSettings)
    (hits : List IsoCaloHit) :
    List.Forall₂ (fun h h' =>
      ((if h.hitType = HitType.ECAL then st.isolationDensityWeightCutECal
          else st.isolationDensityWeightCutHCal) ≤ h.densityWeight → h' = h) ∧
      h'.isAvailable = h.isAvailable ∧
      h'.densityWeight = h.densityWeight ∧
      h'.surroundingEnergy = h.surroundingEnergy ∧
      h'.possibleMip = h.possibleMip ∧
      (h'.isolated = h.isolated ∨ h'.isolated = true) ∧
      (h.isolated = true → h'.isolated = true))
      hits (ApplySimpleIsolationScheme st hits) := by
  induction hits with
  | nil => exact List.Forall₂.nil
  | cons h t ih =>
    refine List.Forall₂.cons ?_ ih
    by_cases hc : h.densityWeight <
        (if h.hitType = HitType.ECAL then st.isolationDensityWeightCutECal
          else st.isolationDensityWeightCutHCal)
    · refine ⟨fun hge => absurd hc (not_lt.mpr hge), ?_⟩
      simp [ApplySimpleIsolationScheme, hc]
    · refine ⟨fun _ => ?_, ?_⟩ <;> simp [ApplySimpleIsolationScheme, hc]

/-- Witness for C10 at a concrete settings/hit-list pair. -/
theorem C10_simple_isolation_frame_witness :
    List.Forall₂ (fun h h' =>
      ((if h.hitType = HitType.ECAL then (1 : ℚ) else 2) ≤ h.densityWeight →
        h' = h) ∧
      h'.isAvailable = h.isAvailable ∧
      h'.densityWeight = h.densityWeight ∧
      h'.surroundingEnergy = h.surroundingEnergy ∧
      h'.possibleMip = h.possibleMip ∧
      (h'.isolated = h.isolated ∨ h'.isolated = true) ∧
      (h.isolated = true → h'.isolated = true))
      [⟨HitType.ECAL, 5, false, false, 0, true⟩,
        ⟨HitType.HCAL, 1, false, true, 3, false⟩]
      (ApplySimpleIsolationScheme ⟨1, 2⟩
        [⟨HitType.ECAL, 5, false, false, 0, true⟩,
          ⟨HitType.HCAL, 1, false, true, 3, false⟩]) :=
  C10_simple_isolation_frame ⟨1, 2⟩
    [⟨HitType.ECAL, 5, false, false, 0, true⟩,
      ⟨HitType.HCAL, 1, false, true, 3, false⟩]

/-- C1: applying a registered overlay at depth 1 writes every (hit, value)
entry of that overlay into the hits' ground-truth availability flags, and
afterwards the overlay registry, the parent-overlay stack and the
nesting-level history are all empty and the depth counter is 0. -/
theorem C1_terminal_apply (avail : HitId → Bool) (s : ManagerState)
    (N : String) (mid : MapId) (um : UsageMap)
    (hdep : s.nReclusteringProcesses = 1)
    (hreg : alistFind s.nameToCaloHitUsageMap N = some mid)
    (hum : alistFind s.mapStore mid = some um)
    (hnd : (um.map Prod.fst).Nodup) :
    (ApplyCaloHitUsageMap N avail s).1 = SUCCESS ∧
    (∀ kv ∈ um, (ApplyCaloHitUsageMap N avail s).2.1 kv.1 = kv.2) ∧
    (ApplyCaloHitUsageMap N avail s).2.2.nameToCaloHitUsageMap = [] ∧
    (ApplyCaloHitUsageMap N avail s).2.2.parentCaloHitUsageMaps = [] ∧
    (ApplyCaloHitUsageMap N avail s).2.2.nestedUsageMapNames = [] ∧
    (ApplyCaloHitUsageMap N avail s).2.2.nReclusteringProcesses = 0 := by
  have h0 : ¬ s.nReclusteringProcesses = 0 := by omega
  have happly : ApplyCaloHitUsageMap N avail s =
      (SUCCESS, writeAvailList avail um,
        { s with
          nReclusteringProcesses := 0
          pCurrentUsageMap := none
          parentCaloHitUsageMaps := []
          nestedUsageMapNames := []
          nameToCaloHitUsageMap := []
          mapStore :=
            s.mapStore.filter (fun e =>
              decide (e.1 ∉ s.nameToCaloHitUsageMap.map Prod.snd)) }) := by
    unfold ApplyCaloHitUsageMap
    rw [if_neg h0, hreg]
    simp only [hum, Option.getD_some, if_pos hdep]
    unfold ClearCaloHitUsageMaps
    simp
  rw [happly]
  exact ⟨rfl, fun kv hkv => writeAvailList_mem um avail kv hnd hkv,
    rfl, rfl, rfl, rfl⟩

/-- Witness for C1 at a concrete depth-1 state. -/
theorem C1_terminal_apply_witness :
    c1State.nReclusteringProcesses = 1 ∧
    alistFind c1State.nameToCaloHitUsageMap "a" = some 0 ∧
    alistFind c1State.mapStore 0 = some [(0, true), (1, false)] ∧
    (([(0, true), (1, false)] : UsageMap).map Prod.fst).Nodup ∧
    ((ApplyCaloHitUsageMap "a" (fun _ => false) c1State).1 = SUCCESS ∧
      (∀ kv ∈ ([(0, true), (1, false)] : UsageMap),
        (ApplyCaloHitUsageMap "a" (fun _ => false) c1State).2.1 kv.1 = kv.2) ∧
      (ApplyCaloHitUsageMap "a" (fun _ => false) c1State).2.2.nameToCaloHitUsageMap = [] ∧
      (ApplyCaloHitUsageMap "a" (fun _ => false) c1State).2.2.parentCaloHitUsageMaps = [] ∧
      (ApplyCaloHitUsageMap "a" (fun _ => false) c1State).2.2.nestedUsageMapNames = [] ∧
      (ApplyCaloHitUsageMap "a" (fun _ => false) c1State).2.2.nReclusteringProcesses = 0) :=
  ⟨by decide, by decide, by decide, by decide,
    C1_terminal_apply (fun _ => false) c1State "a" 0 [(0, true), (1, false)]
      (by decide) (by decide) (by decide) (by decide)⟩

/-- C6: at depth 0 `SetCaloHitAvailability` always succeeds and writes the
hit's ground-truth flag; at depth ≥ 1 it updates the current overlay's
entry and fails with NOT_FOUND when the hit is not a key of the current
overlay; the multi-hit form has already updated the entries of the hits
preceding the first unknown hit when it returns NOT_FOUND (no rollback). -/
theorem C6_set_availability :
    (∀ (avail : HitId → Bool) (s : ManagerState) (h : HitId) (v : Bool),
      s.nReclusteringProcesses = 0 →
      SetCaloHitAvailability avail s h v = (SUCCESS, writeAvail avail h v, s) ∧
      writeAvail avail h v h = v) ∧
    (∀ (avail : HitId → Bool) (s : ManagerState) (cid : MapId) (m : UsageMap)
        (h : HitId) (v : Bool),
      1 ≤ s.nReclusteringProcesses →
      s.pCurrentUsageMap = some cid →
      alistFind s.mapStore cid = some m →
      ((alistFind m h).isSome →
        (SetCaloHitAvailability avail s h v).1 = SUCCESS ∧
        (SetCaloHitAvailability avail s h v).2.1 = avail ∧
        alistFind (currentMap (SetCaloHitAvailability avail s h v).2.2) h =
          some v) ∧
      (alistFind m h = none →
        SetCaloHitAvailability avail s h v = (NOT_FOUND, avail, s))) ∧
    (∀ (avail : HitId → Bool) (s : ManagerState) (cid : MapId) (m : UsageMap)
        (pre : List HitId) (bad : HitId) (rest : List HitId) (v : Bool),
      1 ≤ s.nReclusteringProcesses →
      s.pCurrentUsageMap = some cid →
      alistFind s.mapStore cid = some m →
      (∀ p ∈ pre, (alistFind m p).isSome) →
      alistFind m bad = none →
      (SetCaloHitAvailabilityList avail s (pre ++ bad :: rest) v).1 =
        NOT_FOUND ∧
      (SetCaloHitAvailabilityList avail s (pre ++ bad :: rest) v).2.1 = avail ∧
      (∀ p ∈ pre,
        alistFind
          (currentMap (SetCaloHitAvailabilityList avail s
            (pre ++ bad :: rest) v).2.2) p = some v)) := by
  refine ⟨?_, ?_, ?_⟩
  · intro avail s h v hd
    constructor
    · simp [SetCaloHitAvailability, hd]
    · simp [writeAvail]
  · intro avail s cid m h v hdep hcur hfind
    have h0 : ¬ s.nReclusteringProcesses = 0 := by omega
    have hm : currentMap s = m := by simp [currentMap, hcur, hfind]
    constructor
    · intro hsome
      rcases Option.isSome_iff_exists.mp hsome with ⟨b, hb⟩
      have hset : SetCaloHitAvailability avail s h v =
          (SUCCESS, avail, mutateCurrent s (fun m0 => alistSet m0 h v)) := by
        simp [SetCaloHitAvailability, h0, hm, hb]
      rw [hset]
      refine ⟨rfl, rfl, ?_⟩
      have hstore : (mutateCurrent s (fun m0 => alistSet m0 h v)).mapStore =
          alistSet s.mapStore cid (alistSet m h v) := by
        simp [mutateCurrent, hcur, hfind]
      have hcur' : (mutateCurrent s
          (fun m0 => alistSet m0 h v)).pCurrentUsageMap = some cid := by
        simp [mutateCurrent, hcur]
      have hcm : currentMap (mutateCurrent s (fun m0 => alistSet m0 h v)) =
          alistSet m h v := by
        simp [currentMap, hcur', hstore, alistFind_set, hfind]
      rw [hcm, alistFind_set, if_pos rfl, hb]
      rfl
    · intro hnone
      simp [SetCaloHitAvailability, h0, hm, hnone]
  · intro avail s cid m pre bad rest v hdep hcur hfind hpre hbad
    have h0 : ¬ s.nReclusteringProcesses = 0 := by omega
    have hpre' : ∀ kv ∈ pre.map (fun h => (h, v)),
        (alistFind m kv.1).isSome := by
      intro kv hkv
      rcases List.mem_map.mp hkv with ⟨p, hp, hpkv⟩
      rw [← hpkv]
      exact hpre p hp
    obtain ⟨f1, f2, f3⟩ :=
      setLoop_first_missing (pre.map (fun h => (h, v))) s cid m (bad, v)
        (rest.map (fun h => (h, v))) hcur hfind hpre' hbad
    have hL : (pre ++ bad :: rest).map (fun h => (h, v)) =
        pre.map (fun h => (h, v)) ++ (bad, v) :: rest.map (fun h => (h, v)) := by
      simp
    have hset : SetCaloHitAvailabilityList avail s (pre ++ bad :: rest) v =
        (NOT_FOUND, avail,
          (setLoop s (pre.map (fun h => (h, v)) ++
            (bad, v) :: rest.map (fun h => (h, v)))).2) := by
      unfold SetCaloHitAvailabilityList
      rw [if_neg h0, hL]
      rcases hE : setLoop s (pre.map (fun h => (h, v)) ++
          (bad, v) :: rest.map (fun h => (h, v))) with ⟨c, s'⟩
      rw [hE] at f1
      simp only at f1
      subst f1
      rfl
    rw [hset]
    refine ⟨rfl, rfl, ?_⟩
    intro p hp
    have hcur2 : (setLoop s (pre.map (fun h => (h, v)) ++
        (bad, v) :: rest.map (fun h => (h, v)))).2.pCurrentUsageMap =
        some cid := f2.trans hcur
    have hcm : currentMap (setLoop s (pre.map (fun h => (h, v)) ++
        (bad, v) :: rest.map (fun h => (h, v)))).2 =
        writeList m (pre.map (fun h => (h, v))) := by
      simp [currentMap, hcur2, f3]
    rw [hcm]
    exact writeList_const_mem pre m p v hp (hpre p hp)

/-- Witness for C6: the multi-hit form at a concrete state, where hit 2 is
unknown to the current overlay, returns NOT_FOUND with the entry of the
preceding hit 0 already updated. -/
theorem C6_set_availability_witness :
    1 ≤ c6State.nReclusteringProcesses ∧
    c6State.pCurrentUsageMap = some 0 ∧
    alistFind c6State.mapStore 0 = some [(0, true), (1, true)] ∧
    (∀ p ∈ [0], (alistFind ([(0, true), (1, true)] : UsageMap) p).isSome) ∧
    alistFind ([(0, true), (1, true)] : UsageMap) 2 = none ∧
    ((SetCaloHitAvailabilityList (fun _ => true) c6State ([0] ++ 2 :: [1])
        false).1 = NOT_FOUND ∧
      (SetCaloHitAvailabilityList (fun _ => true) c6State ([0] ++ 2 :: [1])
        false).2.1 = (fun _ => true) ∧
      (∀ p ∈ [0],
        alistFind
          (currentMap (SetCaloHitAvailabilityList (fun _ => true) c6State
            ([0] ++ 2 :: [1]) false).2.2) p = some false)) :=
  ⟨by decide, by decide, by decide, by decide, by decide,
    C6_set_availability.2.2 (fun _ => true) c6State 0 [(0, true), (1, true)]
      [0] 2 [1] false (by decide) (by decide) (by decide) (by decide)
      (by decide)⟩

/-- Counterexample to C2 as stated: `CreateInitialCaloHitUsageMap` with an
already-registered name fails, yet the depth counter has been incremented
(1 to 2) and the parent-overlay stack has grown (height 0 to 1), because
the depth increment and the parent push happen before the duplicate-name
check; the name collision is also reported as FAILURE, not as a dedicated
already-exists code. -/
theorem C2_counterexample :
    (CreateInitialCaloHitUsageMap "a" [(0, [0])] initState).2.nReclusteringProcesses = 1 ∧
    (CreateInitialCaloHitUsageMap "a" [(0, [0])]
      initState).2.parentCaloHitUsageMaps.length = 0 ∧
    (CreateInitialCaloHitUsageMap "a" [(0, [0])]
      (CreateInitialCaloHitUsageMap "a" [(0, [0])] initState).2).1 = FAILURE ∧
    (CreateInitialCaloHitUsageMap "a" [(0, [0])]
      (CreateInitialCaloHitUsageMap "a" [(0, [0])]
        initState).2).2.parentCaloHitUsageMaps.length = 1 ∧
    (CreateInitialCaloHitUsageMap "a" [(0, [0])]
      (CreateInitialCaloHitUsageMap "a" [(0, [0])]
        initState).2).2.nReclusteringProcesses = 2 := by
  decide

/-- C2 (amended): the NOT_ALLOWED errors (CreateAdditional or Apply at
depth 0) and the NOT_FOUND error (Apply with an unregistered name) leave
the whole manager state unchanged; but CreateInitial with an
already-registered name fails with the FAILURE code only after
incrementing the depth counter and, when entered at depth ≥ 1, pushing
the previous current overlay onto the parent stack; its registry is left
unchanged. -/
theorem C2_amended_error_state :
    (∀ (s : ManagerState) (name : String),
      s.nReclusteringProcesses = 0 →
      CreateAdditionalCaloHitUsageMap name s = (NOT_ALLOWED, s)) ∧
    (∀ (avail : HitId → Bool) (s : ManagerState) (name : String),
      s.nReclusteringProcesses = 0 →
      ApplyCaloHitUsageMap name avail s = (NOT_ALLOWED, avail, s)) ∧
    (∀ (avail : HitId → Bool) (s : ManagerState) (name : String),
      ¬ s.nReclusteringProcesses = 0 →
      alistFind s.nameToCaloHitUsageMap name = none →
      ApplyCaloHitUsageMap name avail s = (NOT_FOUND, avail, s)) ∧
    (∀ (s : ManagerState) (name : String) (seed : OrderedCaloHitList),
      (alistFind s.nameToCaloHitUsageMap name).isSome →
      (CreateInitialCaloHitUsageMap name seed s).1 = FAILURE ∧
      (CreateInitialCaloHitUsageMap name seed s).2.nameToCaloHitUsageMap =
        s.nameToCaloHitUsageMap ∧
      (CreateInitialCaloHitUsageMap name seed s).2.nReclusteringProcesses =
        s.nReclusteringProcesses + 1 ∧
      (CreateInitialCaloHitUsageMap name seed s).2.parentCaloHitUsageMaps =
        (if 0 < s.nReclusteringProcesses then
          s.parentCaloHitUsageMaps ++ [s.pCurrentUsageMap]
        else s.parentCaloHitUsageMaps)) := by
  refine ⟨?_, ?_, ?_, ?_⟩
  · intro s name hd
    simp [CreateAdditionalCaloHitUsageMap, hd]
  · intro avail s name hd
    simp [ApplyCaloHitUsageMap, hd]
  · intro avail s name hd hnone
    simp [ApplyCaloHitUsageMap, hd, hnone]
  · intro s name seed hsome
    refine ⟨?_, ?_, ?_, ?_⟩ <;> simp [CreateInitialCaloHitUsageMap, hsome]

/-- Witness for the amended C2: a duplicate-name CreateInitial at a
concrete depth-1 state. -/
theorem C2_amended_error_state_witness :
    (alistFind c2State.nameToCaloHitUsageMap "a").isSome ∧
    ((CreateInitialCaloHitUsageMap "a" [(0, [0])] c2State).1 = FAILURE ∧
      (CreateInitialCaloHitUsageMap "a" [(0, [0])]
        c2State).2.nameToCaloHitUsageMap = c2State.nameToCaloHitUsageMap ∧
      (CreateInitialCaloHitUsageMap "a" [(0, [0])]
        c2State).2.nReclusteringProcesses =
        c2State.nReclusteringProcesses + 1 ∧
      (CreateInitialCaloHitUsageMap "a" [(0, [0])]
        c2State).2.parentCaloHitUsageMaps =
        (if 0 < c2State.nReclusteringProcesses then
          c2State.parentCaloHitUsageMaps ++ [c2State.pCurrentUsageMap]
        else c2State.parentCaloHitUsageMaps)) :=
  ⟨by decide,
    C2_amended_error_state.2.2.2 c2State "a" [(0, [0])] (by decide)⟩

/-- Counterexample to C3 as stated: in the sibling-isolation scenario the
subsequent Apply("h0") fails with NOT_ALLOWED, not with NOT_FOUND — the
depth-0 guard fires before the registry lookup. -/
theorem C3_counterexample :
    (ApplyCaloHitUsageMap "h0" c3Run.2.1 c3Run.2.2).1 = NOT_ALLOWED ∧
    ¬ (ApplyCaloHitUsageMap "h0" c3Run.2.1 c3Run.2.2).1 = NOT_FOUND := by
  decide

/-- C3 (amended): in the sibling-isolation scenario, ground truth becomes
hit 0 unavailable and hit 1 available, overlay "h0" is indeed purged from
the registry together with its sibling "h1", but the subsequent
Apply("h0") fails with NOT_ALLOWED because depth is back to 0 and the
depth guard precedes the registry lookup. -/
theorem C3_amended_sibling_isolation :
    c3Run.1 = SUCCESS ∧
    c3Run.2.1 0 = false ∧
    c3Run.2.1 1 = true ∧
    alistFind c3Run.2.2.nameToCaloHitUsageMap "h0" = none ∧
    alistFind c3Run.2.2.nameToCaloHitUsageMap "h1" = none ∧
    c3Run.2.2.nReclusteringProcesses = 0 ∧
    (ApplyCaloHitUsageMap "h0" c3Run.2.1 c3Run.2.2).1 = NOT_ALLOWED := by
  decide

theorem alistFind_append_self {α β : Type} [DecidableEq α]
    (l : List (α × β)) (k : α) (v : β) :
    (alistFind (l ++ [(k, v)]) k).isSome := by
  induction l with
  | nil => simp [alistFind]
  | cons kv t ih =>
    by_cases h : kv.1 = k <;> simp [alistFind, h, ih]

theorem appendToBack_concat (ns : List (List String)) (lvl : List String)
    (n : String) :
    appendToBack (ns ++ [lvl]) n = ns ++ [lvl ++ [n]] := by
  induction ns with
  | nil => rfl
  | cons a t ih =>
    rcases hE : t ++ [lvl] with _ | ⟨b, t'⟩
    · exact absurd hE (by simp)
    · show appendToBack (a :: (t ++ [lvl])) n = a :: (t ++ [lvl ++ [n]])
      rw [hE]
      show a :: appendToBack (b :: t') n = a :: (t ++ [lvl ++ [n]])
      rw [← hE, ih]

/-- Counterexample to C7 as stated: at depth 1 (not 0),
`CreateAdditionalCaloHitUsageMap` with the already-registered name "a"
does not create a sibling overlay: it fails with FAILURE, the current
overlay pointer is unchanged and the name-history of the current nesting
level is still ["a"] (nothing appended). -/
theorem C7_counterexample :
    c7State.nReclusteringProcesses = 1 ∧
    (CreateAdditionalCaloHitUsageMap "a" c7State).1 = FAILURE ∧
    (CreateAdditionalCaloHitUsageMap "a" c7State).2.nestedUsageMapNames =
      [["a"]] ∧
    (CreateAdditionalCaloHitUsageMap "a" c7State).2.pCurrentUsageMap =
      c7State.pCurrentUsageMap ∧
    alistFind
      (CreateAdditionalCaloHitUsageMap "a" c7State).2.nameToCaloHitUsageMap
      "a" = some 0 := by
  decide

/-- C7 (amended): CreateAdditional fails with NOT_ALLOWED at depth 0;
at depth ≥ 1 with a name that is not yet registered it creates a sibling
overlay whose key set equals the current overlay's key set with every
value reset to true, appends the name to the name-history of the current
nesting level, makes the new overlay current and leaves the depth counter
unchanged; at depth ≥ 1 with an already-registered name it fails with
FAILURE, leaving the registry, current overlay, name history and depth
counter unchanged. -/
theorem C7_create_additional :
    (∀ (s : ManagerState) (name : String),
      s.nReclusteringProcesses = 0 →
      CreateAdditionalCaloHitUsageMap name s = (NOT_ALLOWED, s)) ∧
    (∀ (s : ManagerState) (cid : MapId) (m : UsageMap) (name : String)
        (ns : List (List String)) (lvl : List String),
      1 ≤ s.nReclusteringProcesses →
      s.pCurrentUsageMap = some cid →
      alistFind s.mapStore cid = some m →
      alistFind s.nameToCaloHitUsageMap name = none →
      s.nestedUsageMapNames = ns ++ [lvl] →
      (CreateAdditionalCaloHitUsageMap name s).1 = SUCCESS ∧
      (CreateAdditionalCaloHitUsageMap name s).2.pCurrentUsageMap =
        some s.nextMapId ∧
      alistFind (CreateAdditionalCaloHitUsageMap name s).2.mapStore
        s.nextMapId = some (m.map (fun kv => (kv.1, true))) ∧
      (CreateAdditionalCaloHitUsageMap name s).2.nameToCaloHitUsageMap =
        s.nameToCaloHitUsageMap ++ [(name, s.nextMapId)] ∧
      (CreateAdditionalCaloHitUsageMap name s).2.nestedUsageMapNames =
        ns ++ [lvl ++ [name]] ∧
      (CreateAdditionalCaloHitUsageMap name s).2.nReclusteringProcesses =
        s.nReclusteringProcesses) ∧
    (∀ (s : ManagerState) (name : String),
      1 ≤ s.nReclusteringProcesses →
      (alistFind s.nameToCaloHitUsageMap name).isSome →
      (CreateAdditionalCaloHitUsageMap name s).1 = FAILURE ∧
      (CreateAdditionalCaloHitUsageMap name s).2.pCurrentUsageMap =
        s.pCurrentUsageMap ∧
      (CreateAdditionalCaloHitUsageMap name s).2.nameToCaloHitUsageMap =
        s.nameToCaloHitUsageMap ∧
      (CreateAdditionalCaloHitUsageMap name s).2.nestedUsageMapNames =
        s.nestedUsageMapNames ∧
      (CreateAdditionalCaloHitUsageMap name s).2.nReclusteringProcesses =
        s.nReclusteringProcesses) := by
  refine ⟨?_, ?_, ?_⟩
  · intro s name hd
    simp [CreateAdditionalCaloHitUsageMap, hd]
  · intro s cid m name ns lvl hdep hcur hfind hfresh hns
    have h0 : ¬ s.nReclusteringProcesses = 0 := by omega
    have hm : currentMap s = m := by simp [currentMap, hcur, hfind]
    have hsucc : CreateAdditionalCaloHitUsageMap name s =
        (SUCCESS,
          { s with
            mapStore :=
              alistSet (s.mapStore ++ [(s.nextMapId, m)]) s.nextMapId
                (m.map (fun kv => (kv.1, true)))
            nextMapId := s.nextMapId + 1
            nameToCaloHitUsageMap :=
              s.nameToCaloHitUsageMap ++ [(name, s.nextMapId)]
            pCurrentUsageMap := some s.nextMapId
            nestedUsageMapNames :=
              appendToBack s.nestedUsageMapNames name }) := by
      unfold CreateAdditionalCaloHitUsageMap
      rw [if_neg h0, hm]
      simp [hfresh]
    rw [hsucc]
    refine ⟨rfl, rfl, ?_, rfl, ?_, rfl⟩
    · rw [alistFind_set, if_pos rfl]
      rcases Option.isSome_iff_exists.mp
        (alistFind_append_self s.mapStore s.nextMapId m) with ⟨b, hb⟩
      rw [hb]; rfl
    · show appendToBack s.nestedUsageMapNames name = ns ++ [lvl ++ [name]]
      rw [hns, appendToBack_concat]
  · intro s name hdep hsome
    have h0 : ¬ s.nReclusteringProcesses = 0 := by omega
    rcases Option.isSome_iff_exists.mp hsome with ⟨mid, hmid⟩
    refine ⟨?_, ?_, ?_, ?_, ?_⟩ <;>
      simp [CreateAdditionalCaloHitUsageMap, h0, hmid]

/-- Witness for the amended C7: creating the fresh sibling "b" at the
concrete depth-1 state `c7State`. -/
theorem C7_create_additional_witness :
    1 ≤ c7State.nReclusteringProcesses ∧
    c7State.pCurrentUsageMap = some 0 ∧
    alistFind c7State.mapStore 0 = some [(0, false)] ∧
    alistFind c7State.nameToCaloHitUsageMap "b" = none ∧
    c7State.nestedUsageMapNames = [] ++ [["a"]] ∧
    ((CreateAdditionalCaloHitUsageMap "b" c7State).1 = SUCCESS ∧
      (CreateAdditionalCaloHitUsageMap "b" c7State).2.pCurrentUsageMap =
        some c7State.nextMapId ∧
      alistFind (CreateAdditionalCaloHitUsageMap "b" c7State).2.mapStore
        c7State.nextMapId =
        some (([(0, false)] : UsageMap).map (fun kv => (kv.1, true))) ∧
      (CreateAdditionalCaloHitUsageMap "b" c7State).2.nameToCaloHitUsageMap =
        c7State.nameToCaloHitUsageMap ++ [("b", c7State.nextMapId)] ∧
      (CreateAdditionalCaloHitUsageMap "b" c7State).2.nestedUsageMapNames =
        [] ++ [["a"] ++ ["b"]] ∧
      (CreateAdditionalCaloHitUsageMap "b" c7State).2.nReclusteringProcesses =
        c7State.nReclusteringProcesses) :=
  ⟨by decide, by decide, by decide, by decide, by decide,
    C7_create_additional.2.1 c7State 0 [(0, false)] "b" [] ["a"] (by decide)
      (by decide) (by decide) (by decide) (by decide)⟩

/-- C4: a non-terminal Apply (depth ≥ 2) of a registered overlay pops one
overlay off the parent stack and makes it current, overwrites the
now-current overlay's entry for every (hit, value) pair of the applied
overlay (failing with FAILURE when some hit key is missing from that
parent), and on success removes from the registry every overlay whose name
belongs to the name-history of the most recent nesting level (the whole
sibling group) and pops that level off the history stack. -/
theorem C4_nonterminal_apply (avail : HitId → Bool) (s : ManagerState)
    (N : String) (mid pid : MapId) (um pm : UsageMap)
    (ps : List (Option MapId)) (ns : List (List String)) (lvl : List String)
    (hdep : 2 ≤ s.nReclusteringProcesses)
    (hreg : alistFind s.nameToCaloHitUsageMap N = some mid)
    (hum : alistFind s.mapStore mid = some um)
    (hnd : (um.map Prod.fst).Nodup)
    (hpar : s.parentCaloHitUsageMaps = ps ++ [some pid])
    (hpm : alistFind s.mapStore pid = some pm)
    (hns : s.nestedUsageMapNames = ns ++ [lvl])
    (hlvlnd : lvl.Nodup)
    (hlvlreg : ∀ n ∈ lvl, (alistFind s.nameToCaloHitUsageMap n).isSome)
    (hpidfree : ∀ n ∈ lvl, alistFind s.nameToCaloHitUsageMap n ≠ some pid) :
    ((∀ kv ∈ um, (alistFind pm kv.1).isSome) →
      (ApplyCaloHitUsageMap N avail s).1 = SUCCESS ∧
      (ApplyCaloHitUsageMap N avail s).2.1 = avail ∧
      (ApplyCaloHitUsageMap N avail s).2.2.pCurrentUsageMap = some pid ∧
      (ApplyCaloHitUsageMap N avail s).2.2.parentCaloHitUsageMaps = ps ∧
      (ApplyCaloHitUsageMap N avail s).2.2.nReclusteringProcesses =
        s.nReclusteringProcesses - 1 ∧
      (∀ kv ∈ um,
        alistFind (currentMap (ApplyCaloHitUsageMap N avail s).2.2) kv.1 =
          some kv.2) ∧
      (∀ k, k ∉ um.map Prod.fst →
        alistFind (currentMap (ApplyCaloHitUsageMap N avail s).2.2) k =
          alistFind pm k) ∧
      (∀ n,
        alistFind
          (ApplyCaloHitUsageMap N avail s).2.2.nameToCaloHitUsageMap n =
          if n ∈ lvl then none else alistFind s.nameToCaloHitUsageMap n) ∧
      (ApplyCaloHitUsageMap N avail s).2.2.nestedUsageMapNames = ns) ∧
    ((∃ kv ∈ um, alistFind pm kv.1 = none) →
      (ApplyCaloHitUsageMap N avail s).1 = FAILURE) := by
  have h0 : ¬ s.nReclusteringProcesses = 0 := by omega
  have h1 : ¬ s.nReclusteringProcesses = 1 := by omega
  have hunfold : ApplyCaloHitUsageMap N avail s =
      (match setLoop
          { s with
            nReclusteringProcesses := s.nReclusteringProcesses - 1
            pCurrentUsageMap := (s.parentCaloHitUsageMaps.getLast?).getD none
            parentCaloHitUsageMaps := s.parentCaloHitUsageMaps.dropLast }
          um with
        | (false, s2) => (FAILURE, avail, s2)
        | (true, s2) =>
          match ClearMostRecentCaloHitUsageMaps s2 with
          | (SUCCESS, s3) => (SUCCESS, avail, s3)
          | (c, s3) => (c, avail, s3)) := by
    unfold ApplyCaloHitUsageMap
    rw [if_neg h0, hreg]
    simp only [hum, Option.getD_some, if_neg h1]
  have hcur1 : (({ s with
      nReclusteringProcesses := s.nReclusteringProcesses - 1
      pCurrentUsageMap := (s.parentCaloHitUsageMaps.getLast?).getD none
      parentCaloHitUsageMaps :=
        s.parentCaloHitUsageMaps.dropLast } : ManagerState)).pCurrentUsageMap =
      some pid := by
    simp [hpar]
  constructor
  · intro hall
    obtain ⟨c1, c2, c3, c4, c5, c6, c7, c8⟩ :=
      setLoop_found um
        { s with
          nReclusteringProcesses := s.nReclusteringProcesses - 1
          pCurrentUsageMap := (s.parentCaloHitUsageMaps.getLast?).getD none
          parentCaloHitUsageMaps := s.parentCaloHitUsageMaps.dropLast }
        pid pm hcur1 hpm hall
    rcases hE : setLoop
        { s with
          nReclusteringProcesses := s.nReclusteringProcesses - 1
          pCurrentUsageMap := (s.parentCaloHitUsageMaps.getLast?).getD none
          parentCaloHitUsageMaps := s.parentCaloHitUsageMaps.dropLast }
        um with ⟨c, s2⟩
    rw [hE] at c1 c2 c3 c4 c5 c6 c7 c8
    simp only at c1 c2 c3 c4 c5 c6 c7 c8
    subst c1
    have hns2 : s2.nestedUsageMapNames = ns ++ [lvl] := by rw [c5]; exact hns
    have hreg2 : s2.nameToCaloHitUsageMap = s.nameToCaloHitUsageMap := c6
    obtain ⟨e1, e2, e3, e4, e5, e6, e7⟩ :=
      eraseNamesLoop_spec lvl s2 hlvlnd (by rw [hreg2]; exact hlvlreg)
    rcases hF : eraseNamesLoop s2 lvl with ⟨d, s2'⟩
    rw [hF] at e1 e2 e3 e4 e5 e6 e7
    simp only at e1 e2 e3 e4 e5 e6 e7
    subst e1
    have hclear : ClearMostRecentCaloHitUsageMaps s2 =
        (SUCCESS, { s2' with
          nestedUsageMapNames := s2'.nestedUsageMapNames.dropLast }) := by
      unfold ClearMostRecentCaloHitUsageMaps
      rw [hns2]
      simp only [List.getLast?_concat, Option.getD_some, hF]
    have happly : ApplyCaloHitUsageMap N avail s =
        (SUCCESS, avail, { s2' with
          nestedUsageMapNames := s2'.nestedUsageMapNames.dropLast }) := by
      rw [hunfold, hE]
      simp only [hclear]
    rw [happly]
    have hstore2' : alistFind s2'.mapStore pid = some (writeList pm um) := by
      rw [e7 pid (by rw [hreg2]; exact hpidfree), c7]
    have hcur2' : s2'.pCurrentUsageMap = some pid := by
      rw [e3, c3]; exact hcur1
    have hcm : currentMap { s2' with
        nestedUsageMapNames := s2'.nestedUsageMapNames.dropLast } =
        writeList pm um := by
      simp [currentMap, hcur2', hstore2']
    refine ⟨rfl, rfl, hcur2', ?_, ?_, ?_, ?_, ?_, ?_⟩
    · show s2'.parentCaloHitUsageMaps = ps
      rw [e4, c4, hpar]
      simp
    · show s2'.nReclusteringProcesses = s.nReclusteringProcesses - 1
      rw [e2, c2]
    · intro kv hkv
      rw [hcm]
      exact writeList_mem um pm kv hnd hkv (hall kv hkv)
    · intro k hk
      rw [hcm]
      exact writeList_not_mem um pm k hk
    · intro n
      show alistFind s2'.nameToCaloHitUsageMap n = _
      rw [e6 n, hreg2]
    · show s2'.nestedUsageMapNames.dropLast = ns
      rw [e5, hns2]
      simp
  · intro hex
    have hfail := setLoop_missing um
      { s with
        nReclusteringProcesses := s.nReclusteringProcesses - 1
        pCurrentUsageMap := (s.parentCaloHitUsageMaps.getLast?).getD none
        parentCaloHitUsageMaps := s.parentCaloHitUsageMaps.dropLast }
      pid pm hcur1 hpm hex
    rcases hE : setLoop
        { s with
          nReclusteringProcesses := s.nReclusteringProcesses - 1
          pCurrentUsageMap := (s.parentCaloHitUsageMaps.getLast?).getD none
          parentCaloHitUsageMaps := s.parentCaloHitUsageMaps.dropLast }
        um with ⟨c, s2⟩
    rw [hE] at hfail
    simp only at hfail
    subst hfail
    rw [hunfold, hE]

/-- Witness for C4: Apply("child") at the concrete depth-2 state merges
hit 0 ↦ false into the popped parent overlay "branch" and purges exactly
the inner nesting level. -/
theorem C4_nonterminal_apply_witness :
    (∀ kv ∈ ([(0, false)] : UsageMap),
      (alistFind ([(0, true)] : UsageMap) kv.1).isSome) ∧
    ((ApplyCaloHitUsageMap "child" (fun _ => true) c4State).1 = SUCCESS ∧
      (ApplyCaloHitUsageMap "child" (fun _ => true) c4State).2.1 =
        (fun _ => true) ∧
      (ApplyCaloHitUsageMap "child" (fun _ => true)
        c4State).2.2.pCurrentUsageMap = some 1 ∧
      (ApplyCaloHitUsageMap "child" (fun _ => true)
        c4State).2.2.parentCaloHitUsageMaps = [] ∧
      (ApplyCaloHitUsageMap "child" (fun _ => true)
        c4State).2.2.nReclusteringProcesses =
        c4State.nReclusteringProcesses - 1 ∧
      (∀ kv ∈ ([(0, false)] : UsageMap),
        alistFind
          (currentMap (ApplyCaloHitUsageMap "child" (fun _ => true)
            c4State).2.2) kv.1 = some kv.2) ∧
      (∀ k, k ∉ ([(0, false)] : UsageMap).map Prod.fst →
        alistFind
          (currentMap (ApplyCaloHitUsageMap "child" (fun _ => true)
            c4State).2.2) k = alistFind ([(0, true)] : UsageMap) k) ∧
      (∀ n,
        alistFind (ApplyCaloHitUsageMap "child" (fun _ => true)
          c4State).2.2.nameToCaloHitUsageMap n =
          if n ∈ ["child"] then none
          else alistFind c4State.nameToCaloHitUsageMap n) ∧
      (ApplyCaloHitUsageMap "child" (fun _ => true)
        c4State).2.2.nestedUsageMapNames = [["root", "branch"]]) :=
  ⟨by decide,
    (C4_nonterminal_apply (fun _ => true) c4State "child" 2 1 [(0, false)]
      [(0, true)] [] [["root", "branch"]] ["child"] (by decide) (by decide)
      (by decide) (by decide) (by decide) (by decide) (by decide) (by decide)
      (by decide) (by decide)).1 (by decide)⟩

theorem mem_insertHitSet (l : List HitId) (h x : HitId) :
    x ∈ insertHitSet l h ↔ x ∈ l ∨ x = h := by
  unfold insertHitSet
  by_cases hh : h ∈ l
  · simp only [if_pos hh]
    constructor
    · exact Or.inl
    · rintro (hx | rfl)
      · exact hx
      · exact hh
  · simp [if_neg hh]

theorem collectInner_mem (avail : HitId → Bool) (s : ManagerState)
    (hits : List HitId) :
    ∀ (acc : List HitId) (x : HitId),
      x ∈ hits.foldl (fun acc2 h =>
        if IsCaloHitAvailable avail s h then acc2
        else insertHitSet acc2 h) acc ↔
      x ∈ acc ∨ (x ∈ hits ∧ IsCaloHitAvailable avail s x = false) := by
  induction hits with
  | nil => intro acc x; simp
  | cons h t ih =>
    intro acc x
    show x ∈ t.foldl _
      (if IsCaloHitAvailable avail s h then acc else insertHitSet acc h) ↔ _
    rw [ih]
    by_cases hP : IsCaloHitAvailable avail s h = true
    · simp only [if_pos hP]
      constructor
      · rintro (hx | hx)
        · exact Or.inl hx
        · exact Or.inr ⟨List.mem_cons_of_mem _ hx.1, hx.2⟩
      · rintro (hx | ⟨hx1, hx2⟩)
        · exact Or.inl hx
        · rcases List.mem_cons.mp hx1 with rfl | hx1'
          · exact absurd hP (by simp [hx2])
          · exact Or.inr ⟨hx1', hx2⟩
    · simp only [if_neg hP, mem_insertHitSet]
      constructor
      · rintro ((hx | rfl) | hx)
        · exact Or.inl hx
        · exact Or.inr ⟨List.mem_cons_self _ _, by simpa using hP⟩
        · exact Or.inr ⟨List.mem_cons_of_mem _ hx.1, hx.2⟩
      · rintro (hx | ⟨hx1, hx2⟩)
        · exact Or.inl (Or.inl hx)
        · rcases List.mem_cons.mp hx1 with rfl | hx1'
          · exact Or.inl (Or.inr rfl)
          · exact Or.inr ⟨hx1', hx2⟩

theorem collectUnavailable_mem (avail : HitId → Bool) (s : ManagerState)
    (ol : OrderedCaloHitList) (x : HitId) :
    x ∈ collectUnavailable avail s ol ↔
      ∃ layer ∈ ol, x ∈ layer.2 ∧ IsCaloHitAvailable avail s x = false := by
  have main : ∀ (t : OrderedCaloHitList) (acc : List HitId),
      x ∈ t.foldl (fun acc layer =>
        layer.2.foldl (fun acc2 h =>
          if IsCaloHitAvailable avail s h then acc2
          else insertHitSet acc2 h) acc) acc ↔
      x ∈ acc ∨
        ∃ layer ∈ t, x ∈ layer.2 ∧ IsCaloHitAvailable avail s x = false := by
    intro t
    induction t with
    | nil => intro acc; simp
    | cons layer t ih =>
      intro acc
      show x ∈ t.foldl _ (layer.2.foldl _ acc) ↔ _
      rw [ih, collectInner_mem]
      constructor
      · rintro ((hx | hx) | ⟨l, hl, hx⟩)
        · exact Or.inl hx
        · exact Or.inr ⟨layer, List.mem_cons_self _ _, hx⟩
        · exact Or.inr ⟨l, List.mem_cons_of_mem _ hl, hx⟩
      · rintro (hx | ⟨l, hl, hx⟩)
        · exact Or.inl (Or.inl hx)
        · rcases List.mem_cons.mp hl with rfl | hl'
          · exact Or.inl (Or.inr hx)
          · exact Or.inr ⟨l, hl', hx⟩
  rw [collectUnavailable, main ol []]
  simp

/-- C9: for a fixed availability state, `RemoveUnavailableCaloHits` on a
layer index is idempotent — the second call removes nothing, returns
SUCCESS, and yields the same index as the first. -/
theorem C9_remove_unavailable_idempotent (avail : HitId → Bool)
    (s : ManagerState) (orderedCaloHitList : OrderedCaloHitList) :
    (RemoveUnavailableCaloHits avail s
        (RemoveUnavailableCaloHits avail s orderedCaloHitList).2).2 =
      (RemoveUnavailableCaloHits avail s orderedCaloHitList).2 ∧
    (RemoveUnavailableCaloHits avail s
        (RemoveUnavailableCaloHits avail s orderedCaloHitList).2).1 =
      SUCCESS := by
  by_cases hU : (collectUnavailable avail s orderedCaloHitList).isEmpty
  · have h1 : RemoveUnavailableCaloHits avail s orderedCaloHitList =
        (SUCCESS, orderedCaloHitList) := by
      simp [RemoveUnavailableCaloHits, hU]
    rw [h1]
    rw [h1]
    exact ⟨rfl, rfl⟩
  · have h1 : RemoveUnavailableCaloHits avail s orderedCaloHitList =
        (SUCCESS, orderedCaloHitList.map (fun layer =>
          (layer.1, layer.2.filter (fun h =>
            decide (h ∉ collectUnavailable avail s orderedCaloHitList))))) := by
      simp [RemoveUnavailableCaloHits, hU, orderedListRemove]
    have h2 : collectUnavailable avail s
        (orderedCaloHitList.map (fun layer =>
          (layer.1, layer.2.filter (fun h =>
            decide (h ∉ collectUnavailable avail s orderedCaloHitList))))) =
        [] := by
      rw [List.eq_nil_iff_forall_not_mem]
      intro x hx
      rcases (collectUnavailable_mem avail s _ x).mp hx with
        ⟨layer', hl', hxl', hxP⟩
      rcases List.mem_map.mp hl' with ⟨layer, hlayer, hlayer'⟩
      rw [← hlayer'] at hxl'
      simp only [List.mem_filter, decide_eq_true_eq] at hxl'
      exact hxl'.2 ((collectUnavailable_mem avail s _ x).mpr
        ⟨layer, hlayer, hxl'.1, hxP⟩)
    rw [h1]
    have h3 : RemoveUnavailableCaloHits avail s
        (orderedCaloHitList.map (fun layer =>
          (layer.1, layer.2.filter (fun h =>
            decide (h ∉ collectUnavailable avail s orderedCaloHitList))))) =
        (SUCCESS, orderedCaloHitList.map (fun layer =>
          (layer.1, layer.2.filter (fun h =>
            decide (h ∉ collectUnavailable avail s orderedCaloHitList))))) := by
      unfold RemoveUnavailableCaloHits
      rw [h2]
      rfl
    rw [h3]
    exact ⟨rfl, rfl⟩

/-- C8: whenever the hit list contains a distinct hit at the identical
position to the queried hit (trivially within maximum separation), the
density-weight computation raises the FAILURE exception (modelled as
`none`) rather than contributing zero or NaN; stated for a configured
power ≥ 1 (with power 0 the source's `rN` is 1, never 0) and a hit not
sitting exactly at the origin (where float arithmetic would produce NaN
instead of the exact 0 of the real-number model). -/
theorem C8_density_weight_coincident (st : DensitySettings)
    (pCaloHit : GeomHit) (caloHitList : List GeomHit) (other : GeomHit)
    (hmem : other ∈ caloHitList)
    (hid : ¬ other.id = pCaloHit.id)
    (hpos : other.pos = pCaloHit.pos)
    (hpow : 1 ≤ st.densityWeightPower)
    (hnz : pCaloHit.pos.GetMagnitudeSquared ≠ 0) :
    GetDensityWeightContribution st pCaloHit caloHitList = none := by
  induction caloHitList with
  | nil => cases hmem
  | cons o rest ih =>
    rcases List.mem_cons.mp hmem with rfl | hmem'
    · have hid' : ¬ pCaloHit.id = other.id := fun h => hid h.symm
      have hdiff : pCaloHit.pos.vsub other.pos = ⟨0, 0, 0⟩ := by
        rw [hpos]
        simp [CartesianVector.vsub]
      have hmagsq : (pCaloHit.pos.vsub other.pos).GetMagnitudeSquared = 0 := by
        rw [hdiff]
        simp [CartesianVector.GetMagnitudeSquared]
      have hnotgt : ¬ ((pCaloHit.pos.vsub other.pos).GetMagnitudeSquared >
          st.caloHitMaxSeparation * st.caloHitMaxSeparation) := by
        rw [hmagsq]
        exact not_lt.mpr (mul_self_nonneg _)
      have hcross : pCaloHit.pos.GetCrossProduct (pCaloHit.pos.vsub other.pos) =
          ⟨0, 0, 0⟩ := by
        rw [hdiff]
        simp [CartesianVector.GetCrossProduct]
      have hrN : ((pCaloHit.pos.GetCrossProduct
            (pCaloHit.pos.vsub other.pos)).GetMagnitude /
          pCaloHit.pos.GetMagnitude) ^ st.densityWeightPower = 0 := by
        rw [hcross]
        rw [show (⟨0, 0, 0⟩ : CartesianVector).GetMagnitude = 0 by
          simp [CartesianVector.GetMagnitude, CartesianVector.GetMagnitudeSquared]]
        rw [zero_div]
        exact zero_pow (by omega)
      simp only [GetDensityWeightContribution, if_neg hid', if_neg hnotgt,
        if_pos hrN]
    · have hrec := ih hmem'
      simp only [GetDensityWeightContribution]
      by_cases hidc : pCaloHit.id = o.id
      · rw [if_pos hidc]
        exact hrec
      · rw [if_neg hidc]
        by_cases hsep : (pCaloHit.pos.vsub o.pos).GetMagnitudeSquared >
            st.caloHitMaxSeparation * st.caloHitMaxSeparation
        · rw [if_pos hsep]
          exact hrec
        · rw [if_neg hsep]
          by_cases hrN0 : ((pCaloHit.pos.GetCrossProduct
                (pCaloHit.pos.vsub o.pos)).GetMagnitude /
              pCaloHit.pos.GetMagnitude) ^ st.densityWeightPower = 0
          · rw [if_pos hrN0]
          · rw [if_neg hrN0, hrec]
            rfl

/-- Witness for C8: two distinct hits at the identical position (0, 0, 1),
power 1, maximum separation 100. -/
theorem C8_density_weight_coincident_witness :
    (⟨1, ⟨0, 0, 1⟩⟩ : GeomHit) ∈ [(⟨1, ⟨0, 0, 1⟩⟩ : GeomHit)] ∧
    ¬ (⟨1, ⟨0, 0, 1⟩⟩ : GeomHit).id = (⟨0, ⟨0, 0, 1⟩⟩ : GeomHit).id ∧
    (⟨1, ⟨0, 0, 1⟩⟩ : GeomHit).pos = (⟨0, ⟨0, 0, 1⟩⟩ : GeomHit).pos ∧
    1 ≤ (⟨100, 1⟩ : DensitySettings).densityWeightPower ∧
    (⟨0, ⟨0, 0, 1⟩⟩ : GeomHit).pos.GetMagnitudeSquared ≠ 0 ∧
    GetDensityWeightContribution ⟨100, 1⟩ ⟨0, ⟨0, 0, 1⟩⟩
      [⟨1, ⟨0, 0, 1⟩⟩] = none :=
  ⟨List.mem_singleton.mpr rfl, by decide, rfl, by decide,
    by norm_num [CartesianVector.GetMagnitudeSquared],
    C8_density_weight_coincident ⟨100, 1⟩ ⟨0, ⟨0, 0, 1⟩⟩ [⟨1, ⟨0, 0, 1⟩⟩]
      ⟨1, ⟨0, 0, 1⟩⟩ (List.mem_singleton.mpr rfl) (by decide) rfl (by decide)
      (by norm_num [CartesianVector.GetMagnitudeSquared])⟩

end PandoraPFA
